import Mathlib

set_option maxRecDepth 100000

/-!
Verification of `modify_rust_for_variants.py` (pod-insights).

The script applies anchor-based textual edits (Python `str.replace`) to Rust
source documents and generates Rust code that resolves settings through the
precedence chain variant > base > default.  This file embeds:

* the anchor-patch engine: Python `str.replace(old, new)` semantics
  (`pyReplace`), substring occurrence (`containsSub`) and the left-to-right
  non-overlapping occurrence count (`countOcc`) matching `str.count`;
* the concrete rule sets of `modify_cluster_topics_v1` / `_v2`, with the
  anchor and replacement strings transcribed exactly from the source;
* the settings-resolution logic of the generated Rust `main` and
  `load_variant_settings` (the catalog file state is modelled by
  `CatalogResource`; Rust `f64` settings values are modelled by `ℚ`, which is
  faithful because the resolver only selects values and never computes with
  them).
-/

namespace PodInsights

open List

/-- Scanner for Python `str.replace(old, new)` (replace all, left to right,
non-overlapping).  The `Nat` argument is the number of characters of a
just-matched occurrence of `old` that remain to be consumed (they are dropped,
having been replaced by `new` already).  At a match the scanner emits `new`
and skips the matched region; matching is exact, literal and case-sensitive. -/
def replScan (old new : List Char) : Nat → List Char → List Char
  | _, [] => []
  | k+1, _ :: cs => replScan old new k cs
  | 0, c :: cs =>
    if old.isPrefixOf (c :: cs) then new ++ replScan old new (old.length - 1) cs
    else c :: replScan old new 0 cs

/-- Number of occurrences of `old` counted exactly as the scanner replaces
them (left to right, non-overlapping), i.e. Python `str.count` for nonempty
`old`.  Same skip discipline as `replScan`. -/
def countOcc (old : List Char) : Nat → List Char → Nat
  | _, [] => 0
  | k+1, _ :: cs => countOcc old k cs
  | 0, c :: cs =>
    if old.isPrefixOf (c :: cs) then 1 + countOcc old (old.length - 1) cs
    else countOcc old 0 cs

/-- Substring test matching Python `old in s` (the empty pattern occurs in
every string).  Same skip discipline as `replScan` so the three functions can
be related by a common induction. -/
def containsSub (old : List Char) : Nat → List Char → Bool
  | _, [] => old.isEmpty
  | k+1, _ :: cs => containsSub old k cs
  | 0, c :: cs => old.isPrefixOf (c :: cs) || containsSub old 0 cs

/-- Python `s.replace(old, new)` on character lists.  For empty `old` Python
inserts `new` before every character and at the end. -/
def pyReplaceL (s old new : List Char) : List Char :=
  if old.isEmpty then new ++ (s.map (fun c => c :: new)).flatten
  else replScan old new 0 s

/-- Python `s.replace(old, new)` on strings: the operation the script uses
for every edit (src/modify_rust_for_variants.py, `content.replace(...)`). -/
def pyReplace (s old new : String) : String :=
  ⟨pyReplaceL s.data old.data new.data⟩

/-- The empty pattern occurs in every string, as in Python. -/
theorem containsSub_nil_pattern : ∀ (k : Nat) (s : List Char),
    containsSub [] k s = true := by
  intro k s
  induction s generalizing k with
  | nil => simp [containsSub]
  | cons c cs ih =>
    cases k with
    | zero => simp [containsSub]
    | succ k => simpa [containsSub] using ih k

/-- A pattern that occurs nowhere in `s` is never matched: the scan returns
`s` unchanged. -/
theorem replScan_of_not_contains (old new : List Char) :
    ∀ s : List Char, containsSub old 0 s = false → replScan old new 0 s = s := by
  intro s
  induction s with
  | nil => intro _; rfl
  | cons c cs ih =>
    intro h
    simp only [containsSub, Bool.or_eq_false_iff] at h
    simp [replScan, h.1, ih h.2]

/-- No-op on absent anchor, string level: if the pattern does not occur in
the document, `str.replace` returns the document unchanged. -/
theorem pyReplace_of_not_contains (s old new : String)
    (h : containsSub old.data 0 s.data = false) : pyReplace s old new = s := by
  have hne : old.data.isEmpty = false := by
    cases hd : old.data with
    | nil => rw [hd] at h; rw [containsSub_nil_pattern] at h; cases h
    | cons a as => rfl
  unfold pyReplace pyReplaceL
  rw [hne]
  simp only [Bool.false_eq_true, if_false]
  rw [replScan_of_not_contains old.data new.data s.data h]

/-- A prefix of a string is a substring of it. -/
theorem containsSub_of_isPrefixOf {X s : List Char}
    (h : X.isPrefixOf s = true) : containsSub X 0 s = true := by
  cases s with
  | nil =>
    cases X with
    | nil => rfl
    | cons a as => simp [List.isPrefixOf] at h
  | cons c cs => simp [containsSub, h]

/-- Substring occurrence is stable under prepending one character. -/
theorem containsSub_cons {X t : List Char} (c : Char)
    (h : containsSub X 0 t = true) : containsSub X 0 (c :: t) = true := by
  simp [containsSub, h]

/-- Substring occurrence in the left part survives appending on the right. -/
theorem containsSub_append_left {X : List Char} :
    ∀ u t : List Char, containsSub X 0 u = true → containsSub X 0 (u ++ t) = true := by
  intro u
  induction u with
  | nil =>
    intro t h
    have : X.isEmpty = true := h
    have hX : X = [] := by cases X with | nil => rfl | cons a as => cases this
    subst hX
    exact containsSub_nil_pattern 0 t
  | cons c cs ih =>
    intro t h
    simp only [containsSub, Bool.or_eq_true] at h
    rcases h with h | h
    · have h1 : X <+: (c :: cs) := by
        have := ( isPrefixOf_iff_prefix).1 h
        exact this
      have h2 : X <+: (c :: cs) ++ t := h1.trans ( prefix_append _ _)
      have := ( isPrefixOf_iff_prefix).2 h2
      exact containsSub_of_isPrefixOf this
    · exact containsSub_cons c (ih t h)

/-- Substring occurrence in the right part survives prepending on the left. -/
theorem containsSub_append_right {X : List Char} :
    ∀ u t : List Char, containsSub X 0 t = true → containsSub X 0 (u ++ t) = true := by
  intro u
  induction u with
  | nil => intro t h; exact h
  | cons c cs ih => intro t h; exact containsSub_cons c (ih t h)

/-- Length bookkeeping of the scan: every counted occurrence of `old`
contributes `new` to the output in place of `old`.  Stated additively to stay
in `Nat`. -/
theorem replScan_length (old new : List Char) (hold : old ≠ []) :
    ∀ (s : List Char) (k : Nat), k ≤ s.length →
      (replScan old new k s).length + k + countOcc old k s * old.length
        = s.length + countOcc old k s * new.length := by
  have hL : 1 ≤ old.length := by
    cases old with
    | nil => exact absurd rfl hold
    | cons a as => simp
  intro s
  induction s with
  | nil =>
    intro k hk
    simp only [List.length_nil, Nat.le_zero] at hk
    subst hk
    simp [replScan, countOcc]
  | cons c cs ih =>
    intro k hk
    cases k with
    | succ k' =>
      have hk' : k' ≤ cs.length := by simpa using hk
      have := ih k' hk'
      simp only [replScan, countOcc, List.length_cons]
      omega
    | zero =>
      by_cases hp : old.isPrefixOf (c :: cs)
      · have hpre : old <+: (c :: cs) := ( isPrefixOf_iff_prefix).1 hp
        have hlen : old.length ≤ cs.length + 1 := by
          simpa using hpre.length_le
        have h1 : old.length - 1 ≤ cs.length := by omega
        have ih' := ih (old.length - 1) h1
        simp only [replScan, countOcc, hp, if_true, List.length_append,
          List.length_cons]
        have hexp : (1 + countOcc old (old.length - 1) cs) * old.length
            = old.length + countOcc old (old.length - 1) cs * old.length := by
          rw [Nat.add_mul, Nat.one_mul]
        have hexp2 : (1 + countOcc old (old.length - 1) cs) * new.length
            = new.length + countOcc old (old.length - 1) cs * new.length := by
          rw [Nat.add_mul, Nat.one_mul]
        rw [hexp, hexp2]
        omega
      · have := ih 0 (Nat.zero_le _)
        simp only [replScan, countOcc, hp, if_false, List.length_cons,
          Bool.false_eq_true]
        omega

/-- An occurrence witnesses a positive occurrence count. -/
theorem countOcc_pos (old : List Char) (hold : old ≠ []) :
    ∀ (s : List Char) (k : Nat), containsSub old k s = true →
      1 ≤ countOcc old k s := by
  intro s
  induction s with
  | nil =>
    intro k h
    simp only [containsSub] at h
    cases old with
    | nil => exact absurd rfl hold
    | cons a as => cases h
  | cons c cs ih =>
    intro k h
    cases k with
    | succ k' => exact ih k' h
    | zero =>
      by_cases hp : old.isPrefixOf (c :: cs)
      · simp [countOcc, hp]
      · simp only [containsSub, hp, Bool.false_or] at h
        simpa [countOcc, hp] using ih 0 h

/-- Either the scan never fires (and returns the unconsumed suffix), or it
fires at least once and the output contains the replacement text, hence any
substring `T` of the replacement. -/
theorem replScan_skip_or_contains (old new T : List Char)
    (hT : containsSub T 0 new = true) :
    ∀ (s : List Char) (k : Nat),
      replScan old new k s = s.drop k ∨
        containsSub T 0 (replScan old new k s) = true := by
  intro s
  induction s with
  | nil => intro k; left; simp [replScan]
  | cons c cs ih =>
    intro k
    cases k with
    | succ k' =>
      rcases ih k' with h | h
      · left; simpa [replScan] using h
      · right; simpa [replScan] using h
    | zero =>
      by_cases hp : old.isPrefixOf (c :: cs)
      · right
        simp only [replScan, hp, if_true]
        exact containsSub_append_left new _ hT
      · rcases ih 0 with h | h
        · left; simp [replScan, hp, h]
        · right
          simp only [replScan, hp, if_false, Bool.false_eq_true]
          exact containsSub_cons c h

/-- If the replacement text contains `T` and the document contains `T`, the
replaced document still contains `T`. -/
theorem containsSub_pyReplace (s old new : String) (T : List Char)
    (hnew : containsSub T 0 new.data = true)
    (hs : containsSub T 0 s.data = true) :
    containsSub T 0 (pyReplace s old new).data = true := by
  unfold pyReplace pyReplaceL
  by_cases he : old.data.isEmpty
  · simp only [he, if_true]
    exact containsSub_append_left new.data _ hnew
  · simp only [he, Bool.false_eq_true, if_false]
    rcases replScan_skip_or_contains old.data new.data T hnew s.data 0 with h | h
    · rw [h]; simpa using hs
    · exact h

/-- If no occurrence of `old` starts inside the first `Y.length` positions of
`s`, the scan reproduces the prefix `Y` of `s` verbatim. -/
theorem replScan_keeps_clean_head (old new : List Char) :
    ∀ (Y s : List Char), Y.isPrefixOf s = true →
      (∀ j, j < Y.length → old.isPrefixOf (s.drop j) = false) →
      Y.isPrefixOf (replScan old new 0 s) = true := by
  intro Y
  induction Y with
  | nil =>
    intro s _ _
    cases replScan old new 0 s <;> rfl
  | cons y Y' ih =>
    intro s hpre hclean
    cases s with
    | nil => simp [List.isPrefixOf] at hpre
    | cons c cs =>
      have h0 : old.isPrefixOf (c :: cs) = false := by
        simpa using hclean 0 (by simp)
      simp only [List.isPrefixOf, Bool.and_eq_true, beq_iff_eq] at hpre
      simp only [replScan, h0, Bool.false_eq_true, if_false, List.isPrefixOf,
        Bool.and_eq_true, beq_iff_eq]
      refine ⟨hpre.1, ih cs hpre.2 ?_⟩
      intro j hj
      simpa using hclean (j + 1) (by simpa using Nat.succ_lt_succ hj)

/-- Occurrence-survival core.  `hA` says no occurrence of `old` can start
inside an occurrence of `X`; `hB` says an occurrence of `X` cannot start
strictly inside an occurrence of `old`.  Under these (decidable, per string
pair) conditions, an occurrence of `X` at a position at or beyond the skip
region survives the replacement scan. -/
theorem replScan_preserves_occurrence (old new X : List Char)
    (hX : X ≠ [])
    (hA : ∀ j, j < X.length →
      old.isPrefixOf (X.drop j) = false ∧ (X.drop j).isPrefixOf old = false)
    (hB : ∀ m, m < old.length → 0 < m →
      (old.drop m).isPrefixOf X = false ∧ X.isPrefixOf (old.drop m) = false) :
    ∀ (s : List Char) (k i : Nat), k ≤ i → X.isPrefixOf (s.drop i) = true →
      containsSub X 0 (replScan old new k s) = true := by
  intro s
  induction s with
  | nil =>
    intro k i _ hocc
    rw [List.drop_nil] at hocc
    cases X with
    | nil => exact absurd rfl hX
    | cons a as => simp [List.isPrefixOf] at hocc
  | cons c cs ih =>
    intro k i hki hocc
    cases k with
    | succ k' =>
      have hi : 1 ≤ i := le_trans (Nat.succ_le_succ (Nat.zero_le _)) hki
      obtain ⟨i', rfl⟩ : ∃ i', i = i' + 1 := ⟨i - 1, by omega⟩
      have hocc' : X.isPrefixOf (cs.drop i') = true := by
        simpa using hocc
      simpa [replScan] using ih k' i' (by omega) hocc'
    | zero =>
      cases i with
      | zero =>
        -- the occurrence starts right here; no match of `old` can begin
        -- inside it, so the scan copies it verbatim
        rw [List.drop_zero] at hocc
        have hX_pre : X <+: (c :: cs) := ( isPrefixOf_iff_prefix).1 hocc
        obtain ⟨rest, hrest⟩ := hX_pre
        have hclean : ∀ j, j < X.length →
            old.isPrefixOf ((c :: cs).drop j) = false := by
          intro j hj
          by_contra hcon
          have hcon' : old.isPrefixOf ((c :: cs).drop j) = true := by
            cases hv : old.isPrefixOf ((c :: cs).drop j) with
            | false => exact absurd hv hcon
            | true => rfl
          have hdropX : (c :: cs).drop j = X.drop j ++ rest := by
            rw [← hrest]
            exact List.drop_append_of_le_length (le_of_lt hj)
          rw [hdropX] at hcon'
          have hop : old <+: X.drop j ++ rest :=
            ( isPrefixOf_iff_prefix).1 hcon'
          have hxp : X.drop j <+: X.drop j ++ rest := prefix_append _ _
          rcases prefix_or_prefix_of_prefix hop hxp with h | h
          · have := ( isPrefixOf_iff_prefix).2 h
            exact absurd this (by simp [(hA j hj).1])
          · have := ( isPrefixOf_iff_prefix).2 h
            exact absurd this (by simp [(hA j hj).2])
        have := replScan_keeps_clean_head old new X (c :: cs) hocc hclean
        exact containsSub_of_isPrefixOf this
      | succ i' =>
        have hocc' : X.isPrefixOf (cs.drop i') = true := by simpa using hocc
        by_cases hp : old.isPrefixOf (c :: cs)
        · -- a match fires at the head; the occurrence of `X` cannot start
          -- strictly inside the matched region, so it lies beyond it
          have hpre : old <+: (c :: cs) := ( isPrefixOf_iff_prefix).1 hp
          obtain ⟨rest, hrest⟩ := hpre
          have hge : old.length ≤ i' + 1 := by
            by_contra hlt
            push_neg at hlt
            have hm : i' + 1 < old.length := hlt
            have hdrop : (c :: cs).drop (i' + 1) = old.drop (i' + 1) ++ rest := by
              rw [← hrest]
              exact List.drop_append_of_le_length (le_of_lt hm)
            rw [hdrop] at hocc
            have hxp : X <+: old.drop (i' + 1) ++ rest :=
              ( isPrefixOf_iff_prefix).1 hocc
            have hop : old.drop (i' + 1) <+: old.drop (i' + 1) ++ rest :=
              prefix_append _ _
            rcases prefix_or_prefix_of_prefix hxp hop with h | h
            · have := ( isPrefixOf_iff_prefix).2 h
              exact absurd this
                (by simp [(hB (i' + 1) hm (Nat.succ_pos _)).2])
            · have := ( isPrefixOf_iff_prefix).2 h
              exact absurd this
                (by simp [(hB (i' + 1) hm (Nat.succ_pos _)).1])
          have hrec := ih (old.length - 1) i' (by omega) hocc'
          simp only [replScan, hp, if_true]
          exact containsSub_append_right new _ hrec
        · have hrec := ih 0 i' (Nat.zero_le _) hocc'
          simp only [replScan, hp, Bool.false_eq_true, if_false]
          exact containsSub_cons c hrec

/-- An occurrence of a nonempty substring yields a starting position. -/
theorem containsSub_exists_pos {X : List Char} :
    ∀ s : List Char, containsSub X 0 s = true →
      ∃ i, X.isPrefixOf (s.drop i) = true := by
  intro s
  induction s with
  | nil =>
    intro h
    have hX : X = [] := by
      simp only [containsSub] at h
      cases X with
      | nil => rfl
      | cons a as => cases h
    exact ⟨0, by simp [hX, List.isPrefixOf]⟩
  | cons c cs ih =>
    intro h
    simp only [containsSub, Bool.or_eq_true] at h
    rcases h with h | h
    · exact ⟨0, by simpa using h⟩
    · obtain ⟨i, hi⟩ := ih h
      exact ⟨i + 1, by simpa using hi⟩

/-- String-level occurrence survival under `str.replace`, given the
no-overlap side conditions on the concrete string pair. -/
theorem containsSub_pyReplace_of_no_overlap (s old new : String) (X : List Char)
    (hX : X ≠ []) (hold : old.data ≠ [])
    (hA : ∀ j, j < X.length →
      old.data.isPrefixOf (X.drop j) = false ∧
        (X.drop j).isPrefixOf old.data = false)
    (hB : ∀ m, m < old.data.length → 0 < m →
      (old.data.drop m).isPrefixOf X = false ∧
        X.isPrefixOf (old.data.drop m) = false)
    (hs : containsSub X 0 s.data = true) :
    containsSub X 0 (pyReplace s old new).data = true := by
  unfold pyReplace pyReplaceL
  have he : old.data.isEmpty = false := by
    cases hd : old.data with
    | nil => exact absurd hd hold
    | cons a as => rfl
  simp only [he, Bool.false_eq_true, if_false]
  obtain ⟨i, hi⟩ := containsSub_exists_pos s.data hs
  exact replScan_preserves_occurrence old.data new.data X hX hA hB
    s.data 0 i (Nat.zero_le _) hi

/-- String length is the length of the underlying character list. -/
theorem string_length_data (s : String) : s.length = s.data.length := rfl

/-- Length bookkeeping of `str.replace` at string level. -/
theorem pyReplace_length (s old new : String) (hold : old.data ≠ []) :
    (pyReplace s old new).length + countOcc old.data 0 s.data * old.length
      = s.length + countOcc old.data 0 s.data * new.length := by
  have he : old.data.isEmpty = false := by
    cases hd : old.data with
    | nil => exact absurd hd hold
    | cons a as => rfl
  have h := replScan_length old.data new.data hold s.data 0 (Nat.zero_le _)
  simp only [string_length_data, pyReplace, pyReplaceL, he, Bool.false_eq_true,
    if_false]
  omega

/-- With a replacement at least as long as the pattern, `str.replace` never
shrinks the document. -/
theorem pyReplace_length_mono (s old new : String) (hold : old.data ≠ [])
    (hle : old.length ≤ new.length) : s.length ≤ (pyReplace s old new).length := by
  have h := pyReplace_length s old new hold
  have hmul : countOcc old.data 0 s.data * old.length
      ≤ countOcc old.data 0 s.data * new.length :=
    Nat.mul_le_mul_left _ hle
  omega

/-- With a strictly longer replacement and at least one occurrence,
`str.replace` strictly grows the document. -/
theorem pyReplace_length_strict (s old new : String) (hold : old.data ≠ [])
    (hlt : old.length < new.length)
    (hocc : containsSub old.data 0 s.data = true) :
    s.length < (pyReplace s old new).length := by
  have h := pyReplace_length s old new hold
  have hpos := countOcc_pos old.data hold s.data 0 hocc
  have hmul : countOcc old.data 0 s.data * (old.length + 1)
      ≤ countOcc old.data 0 s.data * new.length :=
    Nat.mul_le_mul_left _ hlt
  rw [Nat.mul_add, Nat.mul_one] at hmul
  omega

/-!
The anchor-patch engine.  Every edit in the script is one of three shapes of
`content.replace(...)` call: append an insertion after an anchor
(src lines 20-23), insert before an anchor (src lines 64-67 and 89-92), or
replace a span wholesale (src lines 95-151).
-/

/-- The three edit shapes used by the script. -/
inductive Mode where
  | appendAfter
  | insertBefore
  | replaceSpan
deriving DecidableEq, Repr

/-- An anchor rule: anchor text, insertion text (for `replaceSpan` the
anchor is the old span and the insertion the new span), and mode. -/
structure AnchorRule where
  anchor : String
  insertion : String
  mode : Mode
deriving DecidableEq, Repr

/-- Apply one rule to a document, exactly as the script's `content.replace`
calls do. -/
def applyRule (doc : String) (r : AnchorRule) : String :=
  match r.mode with
  | .appendAfter => pyReplace doc r.anchor (r.anchor ++ r.insertion)
  | .insertBefore => pyReplace doc r.anchor (r.insertion ++ r.anchor)
  | .replaceSpan => pyReplace doc r.anchor r.insertion

/-- Apply a rule set in order; each rule sees the output of the previous
one, as in the script's sequential `content = content.replace(...)`. -/
def applyRules (doc : String) (rs : List AnchorRule) : String :=
  rs.foldl applyRule doc

/-- A rule whose anchor is absent is a silent no-op, for every mode. -/
theorem applyRule_of_not_contains (doc : String) (r : AnchorRule)
    (h : containsSub r.anchor.data 0 doc.data = false) :
    applyRule doc r = doc := by
  cases hm : r.mode <;>
    simp only [applyRule, hm] <;>
    exact pyReplace_of_not_contains _ _ _ h

/-- A rule set none of whose anchors occurs in `doc` leaves `doc` unchanged. -/
theorem applyRules_of_not_contains (doc : String) :
    ∀ rs : List AnchorRule,
      (∀ r ∈ rs, containsSub r.anchor.data 0 doc.data = false) →
      applyRules doc rs = doc := by
  intro rs
  induction rs with
  | nil => intro _; rfl
  | cons r rs' ih =>
    intro h
    have h1 : applyRule doc r = doc :=
      applyRule_of_not_contains doc r (h r (by simp))
    have h2 : applyRules doc rs' = doc := ih (fun r' hr' => h r' (by simp [hr']))
    simp only [applyRules, List.foldl_cons, h1]
    exact h2

/-- Anchor of the first v1/v2 edit (src lines 20-23): the indicatif import line. -/
def anchorUse : String :=
  "use indicatif::\x7bProgressBar, ProgressStyle\x7d;"

/-- Replacement of the first edit: the anchor followed by the clap import. -/
def replUse : String :=
  "use indicatif::\x7bProgressBar, ProgressStyle\x7d;\nuse clap::Parser;"

/-- The `variant_structs` block inserted by `modify_cluster_topics_v1` (src lines 26-61). -/
def variantStructsV1 : String :=
  "\n/// Command-line arguments\n#[derive(Parser, Debug)]\n#[command(name = \"cluster-topics\")]\n#[command(about = \"V1 Topic clustering using HAC\", long_about = None)]\nstruct Args \x7b\n    /// Variant name to load from variants.json\n    #[arg(short, long)]\n    variant: Option<String>,\n\x7d\n\n#[derive(Debug, Deserialize, Clone)]\nstruct VariantsConfig \x7b\n    variants: HashMap<String, VariantConfig>,\n\x7d\n\n#[derive(Debug, Deserialize, Clone)]\nstruct VariantConfig \x7b\n    version: String,\n    name: String,\n    settings: VariantSettings,\n\x7d\n\n#[derive(Debug, Deserialize, Clone)]\nstruct VariantSettings \x7b\n    clusters: Option<usize>,\n    #[serde(rename = \"outlierThreshold\")]\n    outlier_threshold: Option<f64>,\n    #[serde(rename = \"linkageMethod\")]\n    linkage_method: Option<String>,\n    #[serde(rename = \"useRelevanceWeighting\")]\n    use_relevance_weighting: Option<bool>,\n    #[serde(rename = \"useLLMNaming\")]\n    use_llm_naming: Option<bool>,\n\x7d\n"

/-- Anchor of the second edit (src lines 64-67): the Settings struct header. -/
def anchorSettings : String :=
  "\n#[derive(Debug, Deserialize)]\nstruct Settings \x7b"

/-- The `helper_function` block (src lines 70-87), identical in v1 and v2 (src lines 217-234). -/
def helperFunction : String :=
  "\n/// Load variant settings from variants.json\nfn load_variant_settings(variant_name: &str) -> Result<VariantSettings, Box<dyn std::error::Error>> \x7b\n    let variants_path = PathBuf::from(\"variants.json\");\n    if !variants_path.exists() \x7b\n        return Err(\"variants.json not found\".into());\n    \x7d\n    \n    let variants_content = fs::read_to_string(&variants_path)?;\n    let variants_config: VariantsConfig = serde_json::from_str(&variants_content)?;\n    \n    let variant = variants_config.variants.get(variant_name)\n        .ok_or_else(|| format!(\"Variant \x27\x7b\x7d\x27 not found in variants.json\", variant_name))?;\n    \n    Ok(variant.settings.clone())\n\x7d\n\n"

/-- Anchor of the third edit (src lines 89-92): the tokio main header. -/
def anchorMain : String :=
  "#[tokio::main]\nasync fn main("

/-- The `old_main_start` span replaced by the fourth v1 edit (src lines 95-110). -/
def oldMainStart : String :=
  "async fn main() -> Result<(), Box<dyn std::error::Error>> \x7b\n    let start_time = Instant::now();\n    println!(\"🔬 Topic-Clustering für Freakshow Episoden\\n\");\n    let settings_path = PathBuf::from(\"settings.json\");\n    if !settings_path.exists() \x7b\n        eprintln!(\"\\n❌ settings.json nicht gefunden!\");\n        eprintln!(\"   Kopiere settings.example.json zu settings.json und passe die Konfiguration an.\\n\");\n        std::process::exit(1);\n    \x7d\n    let settings_content = fs::read_to_string(&settings_path)?;\n    let settings: Settings = serde_json::from_str(&settings_content)?;\n    let target_clusters = settings.topic_clustering.as_ref().and_then(|s| s.clusters).unwrap_or(256);\n    let outlier_threshold = settings.topic_clustering.as_ref().and_then(|s| s.outlier_threshold).unwrap_or(0.7);\n    let linkage_method = settings.topic_clustering.as_ref().and_then(|s| s.linkage_method.clone()).unwrap_or_else(|| \"weighted\".to_string());\n    let use_relevance_weighting = settings.topic_clustering.as_ref().and_then(|s| s.use_relevance_weighting).unwrap_or(true);\n    let use_llm_naming = settings.topic_clustering.as_ref().and_then(|s| s.use_llm_naming).unwrap_or(true);"

/-- The `new_main_start` replacement text (src lines 112-149). -/
def newMainStart : String :=
  "async fn main() -> Result<(), Box<dyn std::error::Error>> \x7b\n    let start_time = Instant::now();\n    println!(\"🔬 Topic-Clustering für Freakshow Episoden\\n\");\n    \n    // Parse command-line arguments\n    let args = Args::parse();\n    \n    // Load base settings\n    let settings_path = PathBuf::from(\"settings.json\");\n    if !settings_path.exists() \x7b\n        eprintln!(\"\\n❌ settings.json nicht gefunden!\");\n        eprintln!(\"   Kopiere settings.example.json zu settings.json und passe die Konfiguration an.\\n\");\n        std::process::exit(1);\n    \x7d\n    let settings_content = fs::read_to_string(&settings_path)?;\n    let settings: Settings = serde_json::from_str(&settings_content)?;\n    \n    // Override with variant settings if specified\n    let (target_clusters, outlier_threshold, linkage_method, use_relevance_weighting, use_llm_naming) = \n        if let Some(variant_name) = &args.variant \x7b\n            println!(\"📋 Loading variant: \x7b\x7d\\n\", variant_name);\n            let variant_settings = load_variant_settings(variant_name)?;\n            (\n                variant_settings.clusters.or(settings.topic_clustering.as_ref().and_then(|s| s.clusters)).unwrap_or(256),\n                variant_settings.outlier_threshold.or(settings.topic_clustering.as_ref().and_then(|s| s.outlier_threshold)).unwrap_or(0.7),\n                variant_settings.linkage_method.or(settings.topic_clustering.as_ref().and_then(|s| s.linkage_method.clone())).unwrap_or_else(|| \"weighted\".to_string()),\n                variant_settings.use_relevance_weighting.or(settings.topic_clustering.as_ref().and_then(|s| s.use_relevance_weighting)).unwrap_or(true),\n                variant_settings.use_llm_naming.or(settings.topic_clustering.as_ref().and_then(|s| s.use_llm_naming)).unwrap_or(true),\n            )\n        \x7d else \x7b\n            (\n                settings.topic_clustering.as_ref().and_then(|s| s.clusters).unwrap_or(256),\n                settings.topic_clustering.as_ref().and_then(|s| s.outlier_threshold).unwrap_or(0.7),\n                settings.topic_clustering.as_ref().and_then(|s| s.linkage_method.clone()).unwrap_or_else(|| \"weighted\".to_string()),\n                settings.topic_clustering.as_ref().and_then(|s| s.use_relevance_weighting).unwrap_or(true),\n                settings.topic_clustering.as_ref().and_then(|s| s.use_llm_naming).unwrap_or(true),\n            )\n        \x7d;"

/-- The v2 `variant_structs` block (src lines 170-208). -/
def variantStructsV2 : String :=
  "\n/// Command-line arguments\n#[derive(Parser, Debug)]\n#[command(name = \"cluster-topics-v2\")]\n#[command(about = \"V2 Topic clustering using HDBSCAN\", long_about = None)]\nstruct Args \x7b\n    /// Variant name to load from variants.json\n    #[arg(short, long)]\n    variant: Option<String>,\n\x7d\n\n#[derive(Debug, Deserialize, Clone)]\nstruct VariantsConfig \x7b\n    variants: HashMap<String, VariantConfig>,\n\x7d\n\n#[derive(Debug, Deserialize, Clone)]\nstruct VariantConfig \x7b\n    version: String,\n    name: String,\n    settings: VariantSettings,\n\x7d\n\n#[derive(Debug, Deserialize, Clone)]\nstruct VariantSettings \x7b\n    #[serde(rename = \"minClusterSize\")]\n    min_cluster_size: Option<usize>,\n    #[serde(rename = \"minSamples\")]\n    min_samples: Option<usize>,\n    #[serde(rename = \"reducedDimensions\")]\n    reduced_dimensions: Option<usize>,\n    #[serde(rename = \"outlierThreshold\")]\n    outlier_threshold: Option<f64>,\n    #[serde(rename = \"useRelevanceWeighting\")]\n    use_relevance_weighting: Option<bool>,\n    #[serde(rename = \"useLLMNaming\")]\n    use_llm_naming: Option<bool>,\n\x7d\n"

/-- Anchor of the guarded fourth v2 edit (src lines 243-247). -/
def anchorStartTime : String :=
  "let start_time = Instant::now();"

/-- Replacement of the guarded fourth v2 edit. -/
def replStartTime : String :=
  "let args = Args::parse();\n    let start_time = Instant::now();"



/-!
The layered settings resolver: the Rust code generated into the target
document (`helperFunction` and `newMainStart` above).  Rust `Option::or`,
`Option::and_then` and `unwrap_or` become `rustOr`, `Option.bind` and
`Option.getD`; `f64` values are carried as `ℚ` (the resolver only selects
values, it never computes with them).
-/

/-- Rust `Option::or`: `self` if it is `Some`, otherwise the argument. -/
def rustOr {α : Type} (a b : Option α) : Option α :=
  match a with
  | some x => some x
  | none => b

/-- The generated `VariantSettings` struct (v1 flavor, src lines 49-60):
every field independently optional. -/
structure VariantSettings where
  clusters : Option Nat
  outlier_threshold : Option ℚ
  linkage_method : Option String
  use_relevance_weighting : Option Bool
  use_llm_naming : Option Bool
deriving DecidableEq, Repr

/-- The generated `VariantConfig` struct (src lines 42-47): version and name
are metadata carried alongside the settings. -/
structure VariantConfig where
  version : String
  name : String
  settings : VariantSettings
deriving DecidableEq, Repr

/-- The generated `VariantsConfig` struct (src lines 37-40).  The Rust
`HashMap<String, VariantConfig>` is modelled as an association list with
lookup by key equality. -/
structure VariantsConfig where
  variants : List (String × VariantConfig)
deriving DecidableEq, Repr

/-- Rust `HashMap::get` on the association-list model. -/
def hmGet (m : List (String × VariantConfig)) (k : String) :
    Option VariantConfig :=
  match m with
  | [] => none
  | (k', v) :: rest => if k' = k then some v else hmGet rest k

/-- The `topic_clustering` section of the base `settings.json` as the
generated code accesses it (`settings.topic_clustering.as_ref().and_then(|s|
s.<field>)` in `oldMainStart`/`newMainStart`): the same five independently
optional fields. -/
structure TopicClusteringSettings where
  clusters : Option Nat
  outlier_threshold : Option ℚ
  linkage_method : Option String
  use_relevance_weighting : Option Bool
  use_llm_naming : Option Bool
deriving DecidableEq, Repr

/-- The base `Settings` struct as accessed by the generated code: an
optional `topic_clustering` section. -/
structure Settings where
  topic_clustering : Option TopicClusteringSettings
deriving DecidableEq, Repr

/-- State of the `variants.json` resource as `load_variant_settings` probes
it: absent (`!variants_path.exists()`), unparsable (`serde_json` error with
its message), or parsed. -/
inductive CatalogResource where
  | absent
  | malformed (msg : String)
  | present (cfg : VariantsConfig)

/-- The generated `load_variant_settings` (src lines 70-87): errors are the
exact strings the Rust code produces. -/
def load_variant_settings (res : CatalogResource) (variant_name : String) :
    Except String VariantSettings :=
  match res with
  | .absent => .error "variants.json not found"
  | .malformed e => .error e
  | .present cfg =>
    match hmGet cfg.variants variant_name with
    | none =>
      .error ("Variant \x27" ++ variant_name ++ "\x27 not found in variants.json")
    | some v => .ok v.settings

/-- The five-field effective-settings tuple computed by the generated
`main`: (target_clusters, outlier_threshold, linkage_method,
use_relevance_weighting, use_llm_naming). -/
def EffectiveSettings : Type := Nat × ℚ × String × Bool × Bool

/-- The variant branch of the generated `main` (src lines 133-140): per
field, variant value `.or` base value, `.unwrap_or` default. -/
def resolveWithVariant (vs : VariantSettings) (s : Settings) :
    EffectiveSettings :=
  ( (rustOr vs.clusters
      (s.topic_clustering.bind TopicClusteringSettings.clusters)).getD 256,
    (rustOr vs.outlier_threshold
      (s.topic_clustering.bind
        TopicClusteringSettings.outlier_threshold)).getD (7/10),
    (rustOr vs.linkage_method
      (s.topic_clustering.bind
        TopicClusteringSettings.linkage_method)).getD "weighted",
    (rustOr vs.use_relevance_weighting
      (s.topic_clustering.bind
        TopicClusteringSettings.use_relevance_weighting)).getD true,
    (rustOr vs.use_llm_naming
      (s.topic_clustering.bind
        TopicClusteringSettings.use_llm_naming)).getD true )

/-- The no-variant branch of the generated `main` (src lines 142-148): base
value `.unwrap_or` default, per field. -/
def resolveBase (s : Settings) : EffectiveSettings :=
  ( (s.topic_clustering.bind TopicClusteringSettings.clusters).getD 256,
    (s.topic_clustering.bind
      TopicClusteringSettings.outlier_threshold).getD (7/10),
    (s.topic_clustering.bind
      TopicClusteringSettings.linkage_method).getD "weighted",
    (s.topic_clustering.bind
      TopicClusteringSettings.use_relevance_weighting).getD true,
    (s.topic_clustering.bind TopicClusteringSettings.use_llm_naming).getD true )

/-- The settings resolution of the generated `main` (src lines 130-149): if
a variant is requested the catalog is loaded (errors propagate, as with the
Rust `?`); otherwise the catalog resource is never consulted. -/
def resolveMain (variant : Option String) (res : CatalogResource)
    (s : Settings) : Except String EffectiveSettings :=
  match variant with
  | some variant_name =>
    match load_variant_settings res variant_name with
    | .error e => .error e
    | .ok vs => .ok (resolveWithVariant vs s)
  | none => .ok (resolveBase s)


/-- The pure content transformation of `modify_cluster_topics_v1`
(src lines 6-156): four sequential `content.replace` edits.  File I/O (read
at start, single write at end) is outside the pure core. -/
def modify_cluster_topics_v1 (content : String) : String :=
  let c1 := pyReplace content anchorUse replUse
  let c2 := pyReplace c1 anchorSettings (variantStructsV1 ++ anchorSettings)
  let c3 := pyReplace c2 anchorMain (helperFunction ++ anchorMain)
  pyReplace c3 oldMainStart newMainStart

/-- The pure content transformation of `modify_cluster_topics_v2`
(src lines 158-252): three `content.replace` edits plus a guarded fourth one
that only prepends the `Args::parse` line before the timer statement. -/
def modify_cluster_topics_v2 (content : String) : String :=
  let c1 := pyReplace content anchorUse replUse
  let c2 := pyReplace c1 anchorSettings (variantStructsV2 ++ anchorSettings)
  let c3 := pyReplace c2 anchorMain (helperFunction ++ anchorMain)
  if containsSub anchorStartTime.data 0 c3.data then
    pyReplace c3 anchorStartTime replStartTime
  else c3

/-- The file rewrites performed by the script entry point (src lines
254-257): only `modify_cluster_topics_v1` on `src/cluster_topics.rs`; the
`modify_cluster_topics_v2` call is commented out. -/
def mainInvocations : List (String × (String → String)) :=
  [("src/cluster_topics.rs", modify_cluster_topics_v1)]


/-- The spec's example document: the indicatif import line followed by a
main function. -/
def docEx : String :=
  "use indicatif::\x7bProgressBar, ProgressStyle\x7d;\nfn main()\x7b\x7d"




/-- Executable no-overlap check: `old` is never a prefix of, nor has as a
prefix, any nonempty suffix of `X`.  Evaluates by structural recursion, so
large concrete instances reduce without the bounded-quantifier instance. -/
def cleanSuffixes (old : List Char) : List Char → Bool
  | [] => true
  | c :: tl =>
    (!(old.isPrefixOf (c :: tl)) && !((c :: tl).isPrefixOf old))
      && cleanSuffixes old tl

/-- What `cleanSuffixes` checks, as a bounded quantifier over drop offsets. -/
theorem cleanSuffixes_spec (old : List Char) :
    ∀ X : List Char, cleanSuffixes old X = true →
      ∀ j, j < X.length →
        old.isPrefixOf (X.drop j) = false ∧ (X.drop j).isPrefixOf old = false := by
  intro X
  induction X with
  | nil => intro _ j hj; simp at hj
  | cons c tl ih =>
    intro h j hj
    simp only [cleanSuffixes, Bool.and_eq_true, Bool.not_eq_true',
      Bool.and_eq_true] at h
    cases j with
    | zero => exact ⟨h.1.1, h.1.2⟩
    | succ j' =>
      have hj' : j' < tl.length := by simpa using hj
      simpa using ih h.2 j' hj'

/-- The `hB` side condition derived from `cleanSuffixes` on the tail. -/
theorem cleanSuffixes_tail_spec (X : List Char) :
    ∀ old : List Char, cleanSuffixes X old.tail = true →
      ∀ m, m < old.length → 0 < m →
        (old.drop m).isPrefixOf X = false ∧
          X.isPrefixOf (old.drop m) = false := by
  intro old h m hm hpos
  cases old with
  | nil => simp at hm
  | cons c tl =>
    cases m with
    | zero => omega
    | succ m' =>
      have hm' : m' < tl.length := by simpa using hm
      have := cleanSuffixes_spec X tl h m' hm'
      exact ⟨by simpa using this.2, by simpa using this.1⟩




/-!
Claim theorems.
-/

/-- C4: for every document and every anchor-patch rule whose anchor text
does not occur in the document, applying the rule returns the document
unchanged byte-for-byte; no error is raised (`applyRule` is total, the
missing anchor is a silent skip). -/
theorem c4_noop_on_absent_anchor (doc : String) (r : AnchorRule)
    (h : containsSub r.anchor.data 0 doc.data = false) :
    applyRule doc r = doc :=
  applyRule_of_not_contains doc r h

/-- Witness for C4 at a concrete document and rule. -/
theorem c4_noop_on_absent_anchor_witness :
    containsSub "aa".data 0 "bb".data = false ∧
      applyRule "bb" ⟨"aa", "X", Mode.appendAfter⟩ = "bb" :=
  ⟨by decide, c4_noop_on_absent_anchor "bb" ⟨"aa", "X", Mode.appendAfter⟩
    (by decide)⟩

/-- C3: applying a whole rule set twice to the same original document equals
applying it once, provided no rule's anchor occurs in the once-patched
output. -/
theorem c3_idempotent_on_unique_anchors (doc : String) (rs : List AnchorRule)
    (h : ∀ r ∈ rs,
      containsSub r.anchor.data 0 (applyRules doc rs).data = false) :
    applyRules (applyRules doc rs) rs = applyRules doc rs :=
  applyRules_of_not_contains (applyRules doc rs) rs h

/-- Witness for C3 at a concrete document and rule set. -/
theorem c3_idempotent_on_unique_anchors_witness :
    applyRules (applyRules "bcd" [⟨"b", "Q", Mode.replaceSpan⟩])
        [⟨"b", "Q", Mode.replaceSpan⟩]
      = applyRules "bcd" [⟨"b", "Q", Mode.replaceSpan⟩] :=
  c3_idempotent_on_unique_anchors "bcd" [⟨"b", "Q", Mode.replaceSpan⟩]
    (by decide)

/-- C7: the spec's replace-span example: replacing the indicatif import line
by itself plus the clap import yields exactly one occurrence of
`clap::Parser`, with the original line intact immediately above it. -/
theorem c7_replace_span_example :
    applyRule docEx ⟨anchorUse, replUse, Mode.replaceSpan⟩
        = "use indicatif::\x7bProgressBar, ProgressStyle\x7d;\nuse clap::Parser;\nfn main()\x7b\x7d" ∧
      countOcc "clap::Parser".data 0
        (applyRule docEx ⟨anchorUse, replUse, Mode.replaceSpan⟩).data = 1 := by
  constructor
  · decide
  · decide

/-- C1 counterexample: the engine affects every occurrence of the anchor,
not only the first.  On `"abZab"` with an append-after rule (anchor `"ab"`,
insertion `"Q"`, two occurrences of the anchor) the insertion appears twice
and the text after the second occurrence is changed as well. -/
theorem c1_counterexample :
    countOcc "ab".data 0 "abZab".data = 2 ∧
      applyRule "abZab" ⟨"ab", "Q", Mode.appendAfter⟩ = "abQZabQ" ∧
      countOcc "Q".data 0
        (applyRule "abZab" ⟨"ab", "Q", Mode.appendAfter⟩).data ≠ 1 := by
  refine ⟨by decide, by decide, by decide⟩

/-- C1 amended: applying an anchor rule affects every occurrence of the
anchor (Python `str.replace` replaces all): the output length grows by one
insertion per counted occurrence (and for replace-span, each occurrence of
the old span is exchanged for the new span). -/
theorem c1_amended_all_occurrences (doc anchor ins : String)
    (h : anchor.data ≠ []) :
    (applyRule doc ⟨anchor, ins, Mode.appendAfter⟩).length
        = doc.length + countOcc anchor.data 0 doc.data * ins.length ∧
      (applyRule doc ⟨anchor, ins, Mode.insertBefore⟩).length
          = doc.length + countOcc anchor.data 0 doc.data * ins.length ∧
      (applyRule doc ⟨anchor, ins, Mode.replaceSpan⟩).length
            + countOcc anchor.data 0 doc.data * anchor.length
          = doc.length + countOcc anchor.data 0 doc.data * ins.length := by
  refine ⟨?_, ?_, ?_⟩
  · have hl := pyReplace_length doc anchor (anchor ++ ins) h
    rw [String.length_append, Nat.mul_add] at hl
    simp only [applyRule]
    omega
  · have hl := pyReplace_length doc anchor (ins ++ anchor) h
    rw [String.length_append, Nat.mul_add] at hl
    simp only [applyRule]
    omega
  · have hl := pyReplace_length doc anchor ins h
    simp only [applyRule]
    omega

/-- Witness for the amended C1 at the counterexample input. -/
theorem c1_amended_all_occurrences_witness :
    (applyRule "abZab" ⟨"ab", "Q", Mode.appendAfter⟩).length
      = ("abZab" : String).length
          + countOcc "ab".data 0 "abZab".data * ("Q" : String).length :=
  (c1_amended_all_occurrences "abZab" "ab" "Q" (by decide)).1


/-- C9: the concrete v1 rule set violates the unique-anchor precondition:
the indicatif import anchor still occurs in every once-patched output, so a
second application of `modify_cluster_topics_v1` inserts again and the
result differs from the once-patched document; on the spec's example
document the twice-patched output contains `use clap::Parser;` twice. -/
theorem c9_v1_not_idempotent :
    (∀ doc : String, containsSub anchorUse.data 0 doc.data = true →
      containsSub anchorUse.data 0 (modify_cluster_topics_v1 doc).data = true ∧
        modify_cluster_topics_v1 (modify_cluster_topics_v1 doc)
          ≠ modify_cluster_topics_v1 doc) ∧
      countOcc "use clap::Parser;".data 0
          (modify_cluster_topics_v1 docEx).data = 1 ∧
      countOcc "use clap::Parser;".data 0
        (modify_cluster_topics_v1 (modify_cluster_topics_v1 docEx)).data = 2 := by
  have hXne : anchorUse.data ≠ [] := by decide
  -- the anchor survives each of the four edits of one v1 pass
  have hsurv : ∀ d : String, containsSub anchorUse.data 0 d.data = true →
      containsSub anchorUse.data 0 (modify_cluster_topics_v1 d).data = true := by
    intro d hd
    have h1 : containsSub anchorUse.data 0
        (pyReplace d anchorUse replUse).data = true :=
      containsSub_pyReplace d anchorUse replUse anchorUse.data (by decide) hd
    have h2 : containsSub anchorUse.data 0
        (pyReplace (pyReplace d anchorUse replUse) anchorSettings
          (variantStructsV1 ++ anchorSettings)).data = true :=
      containsSub_pyReplace_of_no_overlap _ anchorSettings _ anchorUse.data
        hXne (by decide)
        (cleanSuffixes_spec anchorSettings.data anchorUse.data (by decide))
        (cleanSuffixes_tail_spec anchorUse.data anchorSettings.data (by decide))
        h1
    have h3 : containsSub anchorUse.data 0
        (pyReplace (pyReplace (pyReplace d anchorUse replUse) anchorSettings
          (variantStructsV1 ++ anchorSettings)) anchorMain
            (helperFunction ++ anchorMain)).data = true :=
      containsSub_pyReplace_of_no_overlap _ anchorMain _ anchorUse.data
        hXne (by decide)
        (cleanSuffixes_spec anchorMain.data anchorUse.data (by decide))
        (cleanSuffixes_tail_spec anchorUse.data anchorMain.data (by decide))
        h2
    exact containsSub_pyReplace_of_no_overlap _ oldMainStart _ anchorUse.data
      hXne (by decide)
      (cleanSuffixes_spec oldMainStart.data anchorUse.data (by decide))
      (cleanSuffixes_tail_spec anchorUse.data oldMainStart.data (by decide))
      h3
  -- one v1 pass never shrinks a document, and strictly grows one that
  -- contains the indicatif anchor
  have hgrow : ∀ d : String, containsSub anchorUse.data 0 d.data = true →
      d.length < (modify_cluster_topics_v1 d).length := by
    intro d hd
    have hs1 : d.length < (pyReplace d anchorUse replUse).length :=
      pyReplace_length_strict d anchorUse replUse (by decide) (by decide) hd
    have hs2 : (pyReplace d anchorUse replUse).length
        ≤ (pyReplace (pyReplace d anchorUse replUse) anchorSettings
            (variantStructsV1 ++ anchorSettings)).length := by
      apply pyReplace_length_mono _ _ _ (by decide)
      rw [String.length_append]
      omega
    have hs3 : (pyReplace (pyReplace d anchorUse replUse) anchorSettings
          (variantStructsV1 ++ anchorSettings)).length
        ≤ (pyReplace (pyReplace (pyReplace d anchorUse replUse) anchorSettings
            (variantStructsV1 ++ anchorSettings)) anchorMain
              (helperFunction ++ anchorMain)).length := by
      apply pyReplace_length_mono _ _ _ (by decide)
      rw [String.length_append]
      omega
    have hs4 : (pyReplace (pyReplace (pyReplace d anchorUse replUse)
          anchorSettings (variantStructsV1 ++ anchorSettings)) anchorMain
            (helperFunction ++ anchorMain)).length
        ≤ (modify_cluster_topics_v1 d).length := by
      show _ ≤ (pyReplace _ oldMainStart newMainStart).length
      exact pyReplace_length_mono _ _ _ (by decide) (by decide!)
    omega
  refine ⟨fun doc hdoc => ⟨hsurv doc hdoc, ?_⟩, by decide, by decide⟩
  intro heq
  have := hgrow (modify_cluster_topics_v1 doc) (hsurv doc hdoc)
  rw [heq] at this
  omega

/-- Witness for C9 at the spec's example document. -/
theorem c9_v1_not_idempotent_witness :
    modify_cluster_topics_v1 (modify_cluster_topics_v1 docEx)
      ≠ modify_cluster_topics_v1 docEx :=
  (c9_v1_not_idempotent.1 docEx (by decide)).2


/-- C2: settings resolution is a per-field coalesce with precedence
variant > base > default, for each of the five fields; and on the spec's
concrete example a partial variant falls through per-field to the base. -/
theorem c2_settings_precedence :
    (∀ (vs : VariantSettings) (s : Settings),
      (∀ v, vs.clusters = some v → (resolveWithVariant vs s).1 = v) ∧
      (∀ b, vs.clusters = none →
        s.topic_clustering.bind TopicClusteringSettings.clusters = some b →
        (resolveWithVariant vs s).1 = b) ∧
      (vs.clusters = none →
        s.topic_clustering.bind TopicClusteringSettings.clusters = none →
        (resolveWithVariant vs s).1 = 256) ∧
      (∀ v, vs.outlier_threshold = some v →
        (resolveWithVariant vs s).2.1 = v) ∧
      (∀ b, vs.outlier_threshold = none →
        s.topic_clustering.bind TopicClusteringSettings.outlier_threshold
          = some b → (resolveWithVariant vs s).2.1 = b) ∧
      (vs.outlier_threshold = none →
        s.topic_clustering.bind TopicClusteringSettings.outlier_threshold
          = none → (resolveWithVariant vs s).2.1 = 7/10) ∧
      (∀ v, vs.linkage_method = some v →
        (resolveWithVariant vs s).2.2.1 = v) ∧
      (∀ b, vs.linkage_method = none →
        s.topic_clustering.bind TopicClusteringSettings.linkage_method
          = some b → (resolveWithVariant vs s).2.2.1 = b) ∧
      (vs.linkage_method = none →
        s.topic_clustering.bind TopicClusteringSettings.linkage_method
          = none → (resolveWithVariant vs s).2.2.1 = "weighted") ∧
      (∀ v, vs.use_relevance_weighting = some v →
        (resolveWithVariant vs s).2.2.2.1 = v) ∧
      (∀ b, vs.use_relevance_weighting = none →
        s.topic_clustering.bind TopicClusteringSettings.use_relevance_weighting
          = some b → (resolveWithVariant vs s).2.2.2.1 = b) ∧
      (vs.use_relevance_weighting = none →
        s.topic_clustering.bind TopicClusteringSettings.use_relevance_weighting
          = none → (resolveWithVariant vs s).2.2.2.1 = true) ∧
      (∀ v, vs.use_llm_naming = some v →
        (resolveWithVariant vs s).2.2.2.2 = v) ∧
      (∀ b, vs.use_llm_naming = none →
        s.topic_clustering.bind TopicClusteringSettings.use_llm_naming
          = some b → (resolveWithVariant vs s).2.2.2.2 = b) ∧
      (vs.use_llm_naming = none →
        s.topic_clustering.bind TopicClusteringSettings.use_llm_naming
          = none → (resolveWithVariant vs s).2.2.2.2 = true)) ∧
    resolveWithVariant ⟨none, some (9/10), none, none, none⟩
        ⟨some ⟨some 100, none, none, none, none⟩⟩
      = (100, 9/10, "weighted", true, true) := by
  constructor
  · intro vs s
    refine ⟨?_, ?_, ?_, ?_, ?_, ?_, ?_, ?_, ?_, ?_, ?_, ?_, ?_, ?_, ?_⟩ <;>
      first
        | (intro v h; simp [resolveWithVariant, rustOr, h]; done)
        | (intro b h1 h2; simp [resolveWithVariant, rustOr, h1, h2]; done)
        | (intro h1 h2; simp [resolveWithVariant, rustOr, h1, h2]; done)
  · rfl

/-- Witness for C2: the three coalesce cases exercised on the `clusters`
field. -/
theorem c2_settings_precedence_witness :
    (resolveWithVariant ⟨some 5, none, none, none, none⟩ ⟨none⟩).1 = 5 ∧
      (resolveWithVariant ⟨none, none, none, none, none⟩
        ⟨some ⟨some 7, none, none, none, none⟩⟩).1 = 7 ∧
      (resolveWithVariant ⟨none, none, none, none, none⟩ ⟨none⟩).1 = 256 :=
  ⟨(c2_settings_precedence.1 _ _).1 5 rfl,
   (c2_settings_precedence.1 _ _).2.1 7 rfl rfl,
   (c2_settings_precedence.1 _ _).2.2.1 rfl rfl⟩

/-- C5: requesting a variant name absent from an otherwise-valid catalog
fails, and the error message carries the requested name as a substring. -/
theorem c5_variant_not_found (cfg : VariantsConfig) (n : String)
    (h : hmGet cfg.variants n = none) :
    load_variant_settings (.present cfg) n
        = .error ("Variant \x27" ++ n ++ "\x27 not found in variants.json") ∧
      containsSub n.data 0
        ("Variant \x27" ++ n ++ "\x27 not found in variants.json").data
          = true := by
  constructor
  · simp [load_variant_settings, h]
  · rw [String.data_append, String.data_append]
    exact containsSub_append_left _ _
      (containsSub_append_right _ _
        (containsSub_of_isPrefixOf
          (( isPrefixOf_iff_prefix).2 ( prefix_refl _))))

/-- An example catalog containing only the variants `fast` and `accurate`. -/
def exampleCatalog : VariantsConfig :=
  ⟨[("fast", ⟨"1.0", "Fast", ⟨some 64, none, none, none, none⟩⟩),
    ("accurate", ⟨"1.0", "Accurate", ⟨some 512, some (9/10), none, none, none⟩⟩)]⟩

/-- Witness for C5: requesting `nonexistent` against the example catalog. -/
theorem c5_variant_not_found_witness :
    load_variant_settings (.present exampleCatalog) "nonexistent"
        = .error ("Variant \x27" ++ "nonexistent"
            ++ "\x27 not found in variants.json") ∧
      containsSub "nonexistent".data 0
        ("Variant \x27" ++ "nonexistent"
            ++ "\x27 not found in variants.json").data = true :=
  c5_variant_not_found exampleCatalog "nonexistent" (by decide)

/-- C6: an absent catalog is an error exactly when a variant is requested:
with a variant the resolution fails with the missing-catalog error; with
`variant = none` the catalog resource is never consulted, so resolution does
not depend on it at all. -/
theorem c6_catalog_only_when_requested :
    (∀ (n : String) (s : Settings),
      resolveMain (some n) .absent s = .error "variants.json not found") ∧
    (∀ (s : Settings) (r r' : CatalogResource),
      resolveMain none r s = resolveMain none r' s) := by
  exact ⟨fun n s => rfl, fun s r r' => rfl⟩

/-- C8: variant `version`/`name` metadata never influence resolution: two
catalogs whose entries agree on keys and settings (but may differ in
metadata) resolve identically for every request and base settings. -/
theorem c8_metadata_noninterference (l1 l2 : List (String × VariantConfig))
    (n : String) (s : Settings)
    (h : List.Forall₂
      (fun p q => p.1 = q.1 ∧ p.2.settings = q.2.settings) l1 l2) :
    resolveMain (some n) (.present ⟨l1⟩) s
      = resolveMain (some n) (.present ⟨l2⟩) s := by
  have hget : (hmGet l1 n).map VariantConfig.settings
      = (hmGet l2 n).map VariantConfig.settings := by
    induction h with
    | nil => rfl
    | @cons p q t1 t2 hpq hrest ih =>
      obtain ⟨hk, hs'⟩ := hpq
      by_cases hqn : q.1 = n
      · simp [hmGet, hk, hqn, hs']
      · simp [hmGet, hk, hqn, ih]
  have hload : load_variant_settings (.present ⟨l1⟩) n
      = load_variant_settings (.present ⟨l2⟩) n := by
    cases h1 : hmGet l1 n with
    | none =>
      cases h2 : hmGet l2 n with
      | none => simp [load_variant_settings, h1, h2]
      | some w => rw [h1, h2] at hget; cases hget
    | some v =>
      cases h2 : hmGet l2 n with
      | none => rw [h1, h2] at hget; cases hget
      | some w =>
        rw [h1, h2] at hget
        simp only [Option.map_some'] at hget
        have hvw : v.settings = w.settings := Option.some.inj hget
        simp [load_variant_settings, h1, h2, hvw]
  simp only [resolveMain]
  rw [hload]

/-- Witness for C8: two singleton catalogs differing only in metadata. -/
theorem c8_metadata_noninterference_witness :
    resolveMain (some "fast")
        (.present ⟨[("fast", ⟨"1.0", "Fast", ⟨some 64, none, none, none, none⟩⟩)]⟩)
        ⟨none⟩
      = resolveMain (some "fast")
        (.present ⟨[("fast", ⟨"2.0", "Speedy", ⟨some 64, none, none, none, none⟩⟩)]⟩)
        ⟨none⟩ :=
  c8_metadata_noninterference _ _ "fast" ⟨none⟩
    (List.Forall₂.cons ⟨rfl, rfl⟩ List.Forall₂.nil)


/-- A small v2 target document containing all four v2 anchors. -/
def docV2 : String :=
  "use indicatif::\x7bProgressBar, ProgressStyle\x7d;\n\n#[derive(Debug, Deserialize)]\nstruct Settings \x7b\n    topic_clustering: Option<TopicClustering>,\n\x7d\n\n#[tokio::main]\nasync fn main() -> Result<(), Box<dyn std::error::Error>> \x7b\n    let start_time = Instant::now();\n    Ok(())\n\x7d\n"

/-- C10: `modify_cluster_topics_v2` inserts the Args CLI struct, the
`load_variant_settings` helper and the `let args = Args::parse();`
statement, but the inserted code never calls `load_variant_settings` (its
only occurrence in the output is the `fn` definition itself) and never reads
`args.variant`, so the v2 settings resolution is unaffected by the requested
variant (by contrast the v1 replacement `newMainStart` does read
`args.variant`); and the script entry point invokes only
`modify_cluster_topics_v1` on `src/cluster_topics.rs`. -/
theorem c10_v2_stub_and_entry_point :
    countOcc "struct Args".data 0 docV2.data = 0 ∧
      countOcc "load_variant_settings".data 0 docV2.data = 0 ∧
      countOcc "let args = Args::parse();".data 0 docV2.data = 0 ∧
      countOcc "struct Args".data 0 (modify_cluster_topics_v2 docV2).data = 1 ∧
      countOcc "fn load_variant_settings(".data 0
        (modify_cluster_topics_v2 docV2).data = 1 ∧
      countOcc "load_variant_settings".data 0
        (modify_cluster_topics_v2 docV2).data = 1 ∧
      countOcc "let args = Args::parse();".data 0
        (modify_cluster_topics_v2 docV2).data = 1 ∧
      countOcc "args.variant".data 0 (modify_cluster_topics_v2 docV2).data = 0 ∧
      countOcc "load_variant_settings".data 0
          (variantStructsV2 ++ replUse ++ helperFunction ++ replStartTime).data
        = countOcc "fn load_variant_settings".data 0
            (variantStructsV2 ++ replUse ++ helperFunction
              ++ replStartTime).data ∧
      countOcc "args.variant".data 0
        (variantStructsV2 ++ replUse ++ helperFunction
          ++ replStartTime).data = 0 ∧
      countOcc "args.variant".data 0 newMainStart.data = 1 ∧
      mainInvocations = [("src/cluster_topics.rs", modify_cluster_topics_v1)] := by
  refine ⟨by decide, by decide, by decide, by decide, by decide, by decide,
    by decide, by decide, by decide, by decide, by decide, rfl⟩

end PodInsights
